import Mathlib

/-!
Verification development for the arabellix-time synchronization core.

This file gives a shallow embedding, in Lean 4, of the parts of the
repository that the specification talks about:

- src/gas/managers/gasProjectInfoManager.js (catalog cache, active
  projects tree, catalog sync to the warehouse),
- src/gas/managers/gasSyncManager.js (calendar event sync, sync token
  lifecycle, event row mapping, categories JSON decoding),
- src/gas/managers/gasBigQueryManager.js (row insertion, as far as the
  catalog sync depends on it).

Spreadsheet cells, JavaScript truthiness, JSON.parse and parseFloat are
modelled explicitly; stateful script properties and the user cache are
modelled by explicit state passing. Machine-level details that no claim
depends on (exact ISO timestamp text, float rounding) are modelled by
deterministic stand-ins and noted at the definition site.
-/

/-- A spreadsheet cell value as returned by getValues in Apps Script:
a number, a string, a boolean, a date, or an empty cell. Dates are
modelled at day granularity by an integer whose order agrees with the
calendar order (for example 20240601 for 2024-06-01); numbers are
modelled by rationals. -/
inductive Cell where
  | num (q : Rat)
  | str (s : String)
  | boolean (b : Bool)
  | date (d : Int)
  | empty
deriving DecidableEq

/-- JavaScript truthiness of a cell value: 0, the empty string, false and
undefined are falsy; every date object is truthy. -/
def truthy : Cell → Bool
  | .num q => q != 0
  | .str s => s != ""
  | .boolean b => b
  | .date _ => true
  | .empty => false

/-- Model of the JavaScript String(x) conversion on a cell value. The
exact text produced for numbers and dates is not observable by any claim
(only emptiness and determinism are); empty cells arrive as the empty
string. -/
def cellString : Cell → String
  | .num q => toString q
  | .str s => s
  | .boolean b => if b then "true" else "false"
  | .date d => toString d
  | .empty => ""

/-- Numeric value of one decimal digit character, if it is a digit. -/
def digitVal (c : Char) : Option Nat :=
  if c.isDigit then some (c.toNat - 48) else none

/-- Take the longest run of decimal digits from the front of a character
list, returning the digits and the rest. -/
def takeDigits : List Char → (List Nat × List Char)
  | [] => ([], [])
  | c :: cs =>
    match digitVal c with
    | some d =>
      let p := takeDigits cs
      (d :: p.1, p.2)
    | none => ([], c :: cs)

/-- The natural number denoted by a list of decimal digits. -/
def natOfDigits (ds : List Nat) : Nat :=
  ds.foldl (fun a d => a * 10 + d) 0

/-- The whitespace characters stripped by the parse functions modelled
below (space, tab, line feed, carriage return). -/
def wsChars : List Char := [' ', '\t', '\n', '\x0d']

/-- Whether a character is one of the modelled whitespace characters. -/
def isWsChar (c : Char) : Bool := wsChars.contains c

/-- Model of the JavaScript parseFloat builtin on the decimal fragment
the repository uses: optional leading whitespace, optional sign, digits
with an optional fractional part; trailing garbage is ignored and the
result is none (NaN) when no digit was read. The value sign times
(intpart + fracpart / 10 ^ fracdigits) is built with mkRat so that it
evaluates on concrete inputs. Exponent notation and Infinity are not
modelled; no claim depends on them. -/
def jsParseFloat (s : String) : Option Rat :=
  let cs := s.toList.dropWhile isWsChar
  let sign : Int :=
    match cs with
    | '-' :: _ => -1
    | _ => 1
  let cs1 : List Char :=
    match cs with
    | '-' :: r => r
    | '+' :: r => r
    | r => r
  let ip := takeDigits cs1
  let fp : List Nat :=
    match ip.2 with
    | '.' :: r => (takeDigits r).1
    | _ => []
  if ip.1 = [] && fp = [] then none
  else
    some (mkRat (sign * ((natOfDigits ip.1 * 10 ^ fp.length + natOfDigits fp : Nat) : Int))
      (10 ^ fp.length))

/-- Day number of a date literal written YYYY-MM-DD, in the yyyymmdd
integer encoding used by Cell.date. -/
def parseDayNum (s : String) : Option Int :=
  match s.splitOn "-" with
  | [y, m, d] =>
    match y.toNat?, m.toNat?, d.toNat? with
    | some yn, some mn, some dn =>
      if 1 ≤ mn && mn ≤ 12 && 1 ≤ dn && dn ≤ 31 then
        some ((yn : Int) * 10000 + (mn : Int) * 100 + (dn : Int))
      else none
    | _, _, _ => none
  | _ => none

/-- Model of new Date(cell).setHours(0,0,0,0) at day granularity: a date
cell is its own day, a date-literal string parses to its day, and a value
that does not denote a date is none (the JavaScript NaN, which compares
false against everything). -/
def cellDayNum : Cell → Option Int
  | .date d => some d
  | .str s => parseDayNum s
  | _ => none

/-- One line of the project ledger spreadsheet, after the header row, in
the fixed column order destructured by gasProjectInfoManager: code,
client, project, task, default flag, start, end, rate, description,
comments, budgeted hours, company size, categories. The JavaScript
binder for the seventh column is named end, a reserved word here, so the
field is called stop. -/
structure LedgerRow where
  code : Cell
  client : Cell
  project : Cell
  task : Cell
  is_default : Cell
  start : Cell
  stop : Cell
  rate : Cell
  description : Cell
  comments : Cell
  budgetedHours : Cell
  companySize : Cell
  categories : Cell
deriving DecidableEq

/-- The task entry pushed into the nested structure by
getActiveProjectsTree: code, task, default flag, start, end, rate,
description, comments. -/
structure TaskEntry where
  code : Cell
  task : Cell
  is_default : Cell
  start : Cell
  stop : Cell
  rate : Cell
  description : Cell
  comments : Cell
deriving DecidableEq

/-- The task entry built from a ledger row by getActiveProjectsTree. -/
def entryOf (r : LedgerRow) : TaskEntry :=
  { code := r.code
    task := r.task
    is_default := r.is_default
    start := r.start
    stop := r.stop
    rate := r.rate
    description := r.description
    comments := r.comments }

/-- A JavaScript object with string keys, modelled as an association
list in key insertion order (the order plain objects preserve). -/
def lookupA {α : Type} (k : String) : List (String × α) → Option α
  | [] => none
  | (k0, v) :: rest => if k0 = k then some v else lookupA k rest

/-- Setting a key of a JavaScript object: update the value in place when
the key exists, otherwise append the key at the end. -/
def updateAssoc {α : Type} (k : String) (d : α) (f : α → α) : List (String × α) → List (String × α)
  | [] => [(k, f d)]
  | (k0, v) :: rest =>
    if k0 = k then (k0, f v) :: rest else (k0, v) :: updateAssoc k d f rest

/-- The nested structure built by getActiveProjectsTree: client name to
project name to ordered task list. -/
def CatalogTree : Type := List (String × List (String × List TaskEntry))

/-- Pushing one task entry under a client and project key, creating the
intermediate objects when absent, exactly as the nestedStructure object
is populated in the source. -/
def insertTree (t : CatalogTree) (c p : String) (e : TaskEntry) : CatalogTree :=
  updateAssoc c [] (fun projs => updateAssoc p [] (fun tasks => tasks ++ [e]) projs) t

/-- The task list stored in a tree under a client and project key. -/
def lookupTasks (t : CatalogTree) (c p : String) : List TaskEntry :=
  ((lookupA p ((lookupA c t).getD [])).getD [])

/-- The start or end bound used by the active filters: a truthy cell is
converted to its day number, a falsy (missing) cell defaults to today. -/
def dayBound (c : Cell) (today : Int) : Option Int :=
  if truthy c then cellDayNum c else some today

/-- The date-window test of getActiveProjectsTree: startDate <= today and
endDate >= today, where an unparsable bound (NaN) fails the test. -/
def isActive (r : LedgerRow) (today : Int) : Bool :=
  match dayBound r.start today, dayBound r.stop today with
  | some s, some e => decide (s ≤ today ∧ today ≤ e)
  | _, _ => false

/-- The body of the forEach loop of getActiveProjectsTree: push the task
entry of an active row under its client and project keys, skip an
inactive row. -/
def activeStep (today : Int) (acc : CatalogTree) (r : LedgerRow) : CatalogTree :=
  if isActive r today then
    insertTree acc (cellString r.client) (cellString r.project) (entryOf r)
  else acc

/-- getActiveProjectsTree from gasProjectInfoManager, as a function of
the ledger data returned by fetchData and of today, the run date at
midnight (new Date().setHours(0,0,0,0)). -/
def getActiveProjectsTree (data : List LedgerRow) (today : Int) : CatalogTree :=
  data.foldl (activeStep today) []

/-- The coercion applied to the rate and budgeted-hours cells in
syncToBigQuery: a cell that already holds a number is kept, any other
cell is converted with parseFloat(String(cell)) and the result is then
passed through the JavaScript expression x or-else null, which maps both
NaN and 0 to null. -/
def coerceNum (v : Cell) : Option Rat :=
  match v with
  | .num q => some q
  | _ =>
    match jsParseFloat (cellString v) with
    | some q => if q = 0 then none else some q
    | none => none

/-- Deterministic stand-in for new Date(cell).toISOString() with the T
replaced by a space and the fraction dropped, applied to a truthy start
or end cell. The exact text is not observable by any claim; only that it
is non-null and a function of the cell matters. -/
def isoTimestamp (c : Cell) : String :=
  toString ((cellDayNum c).getD 0) ++ " 00:00:00"

/-- One warehouse row built by syncToBigQuery for the projects table.
The JavaScript property named default is called isDefault here and the
property named from is called from_, both reserved words in Lean; the
to property keeps its name. -/
structure ProjectRow where
  record_date_time : String
  id : Option String
  client : Option String
  project : Option String
  task : Option String
  isDefault : Option Bool
  from_ : Option String
  to_ : Option String
  rate : Option Rat
  description : Option String
  comments : Option String
  budgeted_hours : Option Rat
  company_size : Option String
  categories : List String
  modified_time : String
deriving DecidableEq

/-- The row object literal of syncToBigQuery, mapping one ledger row and
the shared run timestamp currentTime to a warehouse row. A truthy cell
becomes its trimmed string, a falsy one becomes null; the default flag
survives only when the cell is an actual boolean; the categories cell is
split on commas and trimmed when truthy. -/
def mapLedgerRow (currentTime : String) (r : LedgerRow) : ProjectRow :=
  { record_date_time := currentTime
    id := if truthy r.code then some ((cellString r.code).trim) else none
    client := if truthy r.client then some ((cellString r.client).trim) else none
    project := if truthy r.project then some ((cellString r.project).trim) else none
    task := if truthy r.task then some ((cellString r.task).trim) else none
    isDefault := match r.is_default with
      | .boolean b => some b
      | _ => none
    from_ := if truthy r.start then some (isoTimestamp r.start) else none
    to_ := if truthy r.stop then some (isoTimestamp r.stop) else none
    rate := coerceNum r.rate
    description := if truthy r.description then some ((cellString r.description).trim) else none
    comments := if truthy r.comments then some ((cellString r.comments).trim) else none
    budgeted_hours := coerceNum r.budgetedHours
    company_size := if truthy r.companySize then some ((cellString r.companySize).trim) else none
    categories := if truthy r.categories then ((cellString r.categories).splitOn ",").map String.trim else []
    modified_time := currentTime }

/-- The mandatory-field check of syncToBigQuery: the first field of the
list record_date_time, id, client, project, task, from, to whose value
is null, if any. The record_date_time field is the run timestamp string
and is never null. -/
def missingMandatory (r : ProjectRow) : Option String :=
  (([("record_date_time", true),
     ("id", r.id.isSome),
     ("client", r.client.isSome),
     ("project", r.project.isSome),
     ("task", r.task.isSome),
     ("from", r.from_.isSome),
     ("to", r.to_.isSome)].find? (fun p => !p.2)).map (fun p => p.1))

/-- The error message thrown by syncToBigQuery for a row (0-based index
i) missing the mandatory field f. -/
def rowErrorMsg (i : Nat) (f : String) : String :=
  "Row " ++ toString (i + 1) ++ ": Missing mandatory field \"" ++ f ++ "\"."

/-- The data.map callback of syncToBigQuery over the ledger rows from
0-based index i on: each row is mapped and validated in order, and the
first missing mandatory field raises the row error, abandoning the whole
mapping. -/
def mapRowsFrom (t : String) (i : Nat) : List LedgerRow → Except String (List ProjectRow)
  | [] => .ok []
  | r :: rest =>
    match missingMandatory (mapLedgerRow t r) with
    | some f => .error (rowErrorMsg i f)
    | none =>
      match mapRowsFrom t (i + 1) rest with
      | .ok rs => .ok (mapLedgerRow t r :: rs)
      | .error e => .error e

/-- The state touched by gasProjectInfoManager: the user-cache snapshot
of the ledger (none when invalidated; the fixed expiry is not modelled
because no claim observes the passage of cache time), the authoritative
spreadsheet ledger, and the list of batches appended to the warehouse
projects table. -/
structure CatalogState where
  cache : Option (List LedgerRow)
  ledger : List LedgerRow
  bq : List (List ProjectRow)
deriving DecidableEq

/-- clearCache: remove the cached snapshot. -/
def clearCache (s : CatalogState) : CatalogState :=
  { s with cache := none }

/-- fetchData: return the cached snapshot when present, otherwise read
the spreadsheet and cache what was read. -/
def fetchData (s : CatalogState) : List LedgerRow × CatalogState :=
  match s.cache with
  | some d => (d, s)
  | none => (s.ledger, { s with cache := some s.ledger })

/-- syncToBigQuery of gasProjectInfoManager: clear the cache, fetch the
data (now necessarily from the spreadsheet, which re-caches it), map and
validate every row with one shared timestamp, and on success hand the
batch to bigQueryManager.insertRows. A validation error propagates out
before anything is submitted; the insert call itself is modelled as
succeeding, since no claim turns on a warehouse-side insert fault for
the catalog path. -/
def syncToBigQuery (currentTime : String) (s : CatalogState) :
    Except String Unit × CatalogState :=
  match mapRowsFrom currentTime 0 (fetchData (clearCache s)).1 with
  | .error e => (.error e, (fetchData (clearCache s)).2)
  | .ok rows =>
    (.ok (), { (fetchData (clearCache s)).2 with
               bq := (fetchData (clearCache s)).2.bq ++ [rows] })

/-- A JSON value, the result type of the JSON.parse model. -/
inductive Json where
  | null : Json
  | bool (b : Bool) : Json
  | num (q : Rat) : Json
  | str (s : String) : Json
  | arr (elems : List Json) : Json
  | obj (fields : List (String × Json)) : Json

/-- Drop leading JSON whitespace. -/
def skipWs (cs : List Char) : List Char :=
  cs.dropWhile isWsChar

/-- The character denoted by a JSON escape after a backslash, keyed by
the code of the escape letter (quote, backslash and slash denote
themselves; n, t, r, b and f denote their control characters); unicode
escapes are not modelled and make the parse fail, which only ever turns
a parsed value into a parse failure handled by the same catch path. -/
def jsonEsc (c : Char) : Option Char :=
  match c.toNat with
  | 34 => some c
  | 92 => some c
  | 47 => some c
  | 110 => some (Char.ofNat 10)
  | 116 => some (Char.ofNat 9)
  | 114 => some (Char.ofNat 13)
  | 98 => some (Char.ofNat 8)
  | 102 => some (Char.ofNat 12)
  | _ => none

/-- Parse the body of a JSON string after the opening quote, fuelled by
the remaining length. -/
def parseJsonStringBody : Nat → List Char → Option (String × List Char)
  | 0, _ => none
  | _ + 1, [] => none
  | fuel + 1, c :: rest =>
    if c == '"' then some ("", rest)
    else if c == '\\' then
      match rest with
      | [] => none
      | e :: rest1 =>
        match jsonEsc e with
        | none => none
        | some c1 =>
          (parseJsonStringBody fuel rest1).map (fun p => (String.singleton c1 ++ p.1, p.2))
    else
      (parseJsonStringBody fuel rest).map (fun p => (String.singleton c ++ p.1, p.2))

/-- Parse an unsigned JSON number (digits with an optional fractional
part), given a sign, building the value with mkRat so that it evaluates
on concrete inputs. Exponent notation is not modelled. -/
def parseJsonNumberCore (sign : Int) (cs : List Char) : Option (Rat × List Char) :=
  let p := takeDigits cs
  if p.1 = [] then none
  else
    match p.2 with
    | '.' :: r =>
      let q := takeDigits r
      if q.1 = [] then none
      else
        some (mkRat (sign * ((natOfDigits p.1 * 10 ^ q.1.length + natOfDigits q.1 : Nat) : Int))
          (10 ^ q.1.length), q.2)
    | rest => some (mkRat (sign * (natOfDigits p.1 : Int)) 1, rest)

/-- Parse a JSON number with an optional leading minus sign. -/
def parseJsonNumber (cs : List Char) : Option (Rat × List Char) :=
  match cs with
  | '-' :: r => parseJsonNumberCore (-1) r
  | r => parseJsonNumberCore 1 r

mutual

/-- Parse one JSON value, fuelled. -/
def parseJsonValue : Nat → List Char → Option (Json × List Char)
  | 0, _ => none
  | fuel + 1, cs =>
    match skipWs cs with
    | 'n' :: 'u' :: 'l' :: 'l' :: rest => some (.null, rest)
    | 't' :: 'r' :: 'u' :: 'e' :: rest => some (.bool true, rest)
    | 'f' :: 'a' :: 'l' :: 's' :: 'e' :: rest => some (.bool false, rest)
    | '"' :: rest =>
      (parseJsonStringBody (rest.length + 1) rest).map (fun p => (.str p.1, p.2))
    | '[' :: rest =>
      (match skipWs rest with
       | ']' :: rest1 => some (.arr [], rest1)
       | _ => (parseJsonArrayItems fuel rest).map (fun p => (.arr p.1, p.2)))
    | '\x7b' :: rest =>
      (match skipWs rest with
       | '\x7d' :: rest1 => some (.obj [], rest1)
       | _ => (parseJsonObjItems fuel rest).map (fun p => (.obj p.1, p.2)))
    | other => (parseJsonNumber other).map (fun p => (.num p.1, p.2))

/-- Parse the comma-separated items of a non-empty JSON array up to the
closing bracket, fuelled. -/
def parseJsonArrayItems : Nat → List Char → Option (List Json × List Char)
  | 0, _ => none
  | fuel + 1, cs =>
    match parseJsonValue fuel cs with
    | none => none
    | some (v, rest) =>
      match skipWs rest with
      | ',' :: rest1 => (parseJsonArrayItems fuel rest1).map (fun p => (v :: p.1, p.2))
      | ']' :: rest1 => some ([v], rest1)
      | _ => none

/-- Parse the comma-separated members of a non-empty JSON object up to
the closing brace, fuelled. -/
def parseJsonObjItems : Nat → List Char → Option (List (String × Json) × List Char)
  | 0, _ => none
  | fuel + 1, cs =>
    match skipWs cs with
    | '"' :: rest =>
      (match parseJsonStringBody (rest.length + 1) rest with
       | none => none
       | some (k, rest1) =>
         match skipWs rest1 with
         | ':' :: rest2 =>
           (match parseJsonValue fuel rest2 with
            | none => none
            | some (v, rest3) =>
              match skipWs rest3 with
              | ',' :: rest4 => (parseJsonObjItems fuel rest4).map (fun p => ((k, v) :: p.1, p.2))
              | '\x7d' :: rest4 => some ([(k, v)], rest4)
              | _ => none)
         | _ => none)
    | _ => none

end

/-- Model of the JSON.parse builtin: parse one value, require only
whitespace after it, fail (throw) otherwise. The fuel is ample for any
input because every value or item consumes input. -/
def jsonParse (s : String) : Option Json :=
  match parseJsonValue (2 * s.length + 2) s.toList with
  | some p => if (skipWs p.2).isEmpty then some p.1 else none
  | none => none

/-- parseCategories from gasSyncManager: a falsy categories field (absent
or the empty string) yields the empty array; otherwise the field is
JSON-parsed, a parse failure is caught and yields the empty array, and a
successfully parsed value is kept only when Array.isArray holds. -/
def parseCategories (categoriesJson : Option String) : List Json :=
  match categoriesJson with
  | none => []
  | some s =>
    if s = "" then []
    else
      match jsonParse s with
      | none => []
      | some j =>
        match j with
        | .arr elems => elems
        | _ => []

/-- The shared extended properties bag of a calendar event, as read by
insertEventsIntoBigQuery. -/
structure SharedProps where
  Code : Option String
  Client : Option String
  Project : Option String
  Task : Option String
  Rate : Option String
  Comments : Option String
  CompanySize : Option String
  Categories : Option String
  OriginalTitle : Option String
deriving DecidableEq

/-- A shared bag with every property absent, the fallback object used
when an event has no extended properties. -/
def emptyShared : SharedProps :=
  { Code := none, Client := none, Project := none, Task := none,
    Rate := none, Comments := none, CompanySize := none,
    Categories := none, OriginalTitle := none }

/-- The extendedProperties wrapper of a calendar event. -/
structure ExtendedProps where
  shared : Option SharedProps
deriving DecidableEq

/-- The start or end object of a calendar event: a dateTime for timed
events or a date for all-day events. -/
structure EventTime where
  dateTime : Option String
  date : Option String
deriving DecidableEq

/-- The creator object of a calendar event. -/
structure EventCreator where
  email : Option String
deriving DecidableEq

/-- One raw calendar event mutation as returned by the Calendar events
list call, restricted to the fields gasSyncManager reads. The JavaScript
property named end is called stop here, a reserved word in Lean. The
record_load_time field is the one written by addTimestamp before
insertion. -/
structure CalEvent where
  record_load_time : String
  id : String
  summary : Option String
  description : Option String
  start : EventTime
  stop : EventTime
  status : Option String
  extendedProperties : Option ExtendedProps
  iCalUID : Option String
  creator : Option EventCreator
  created : Option String
  updated : Option String

/-- addTimestamp from gasSyncManager: stamp every event of the batch
with one shared load timestamp. -/
def addTimestamp (currentTimestamp : String) (events : List CalEvent) : List CalEvent :=
  events.map (fun e => { e with record_load_time := currentTimestamp })

/-- The JavaScript or-else on two optional strings: the first operand
when it is truthy (present and non-empty), otherwise the second. -/
def jsOr (a b : Option String) : Option String :=
  match a with
  | some s => if s = "" then b else some s
  | none => b

/-- The JavaScript expression x or-else the empty string, on an optional
string. -/
def orEmpty (a : Option String) : String :=
  match a with
  | some s => s
  | none => ""

/-- The sharedProps object computed by insertEventsIntoBigQuery: the
shared extended properties when present, the empty object otherwise. -/
def sharedOf (e : CalEvent) : SharedProps :=
  match e.extendedProperties with
  | some ep =>
    match ep.shared with
    | some sp => sp
    | none => emptyShared
  | none => emptyShared

/-- One warehouse row built for the time table, the json payload of the
insertAll call in insertEventsIntoBigQuery. -/
structure EventRow where
  record_load_time : String
  id : String
  summary : String
  description : String
  start : Option String
  stop : Option String
  code : String
  client : String
  project : String
  task : String
  rate : String
  comments : String
  company_size : String
  categories : List Json
  original_title : String
  deleted : Bool
  ical_uid : String
  creator_email : String
  created_time : String
  modified_time : String

/-- The row object literal of insertEventsIntoBigQuery, the event record
mapper: one raw mutation becomes one flat warehouse row, with the
cancelled status becoming the deleted flag and the categories bag field
JSON-decoded. -/
def mapEventRow (e : CalEvent) : EventRow :=
  { record_load_time := e.record_load_time
    id := e.id
    summary := orEmpty e.summary
    description := orEmpty e.description
    start := jsOr e.start.dateTime e.start.date
    stop := jsOr e.stop.dateTime e.stop.date
    code := orEmpty (sharedOf e).Code
    client := orEmpty (sharedOf e).Client
    project := orEmpty (sharedOf e).Project
    task := orEmpty (sharedOf e).Task
    rate := orEmpty (sharedOf e).Rate
    comments := orEmpty (sharedOf e).Comments
    company_size := orEmpty (sharedOf e).CompanySize
    categories := parseCategories (sharedOf e).Categories
    original_title := orEmpty (sharedOf e).OriginalTitle
    deleted := decide (e.status = some "cancelled")
    ical_uid := orEmpty e.iCalUID
    creator_email := orEmpty (match e.creator with
      | some c => c.email
      | none => none)
    created_time := orEmpty e.created
    modified_time := orEmpty e.updated }

/-- insertEventsIntoBigQuery from gasSyncManager, restricted to the rows
it submits: every event of the batch is mapped, none is filtered out.
Provider-side insertErrors are only logged by this function and never
thrown, so they do not affect the submitted batch. -/
def insertEventsIntoBigQuery (events : List CalEvent) : List EventRow :=
  events.map mapEventRow

/-- The response of the Calendar events list call, restricted to the
fields gasSyncManager reads. -/
structure EventsListResponse where
  items : List CalEvent
  nextSyncToken : Option String

/-- getSyncToken: read the SYNC_TOKEN script property; getProperty
returns null (none) when the property is absent. The stored property is
the state threaded through the event sync functions. -/
def getSyncToken (st : Option String) : Option String := st

/-- The syncToken optional argument the fetch passes to the provider: the
stored token when truthy, absent otherwise (a falsy token adds nothing to
optionalArgs, producing a full sync). -/
def requestSyncToken (st : Option String) : Option String :=
  match st with
  | some s => if s = "" then none else some s
  | none => none

/-- fetchCalendarEvents from gasSyncManager, as a function of the
provider response and the stored token state: it returns the fetched
items and the new token state, which is overwritten with nextSyncToken
exactly when the response carries a truthy one. The write happens here,
inside the fetch, before any insertion. -/
def fetchCalendarEvents (resp : EventsListResponse) (st : Option String) :
    List CalEvent × Option String :=
  (resp.items,
   match resp.nextSyncToken with
   | some t => if t = "" then st else some t
   | none => st)

/-- resetSyncToken: delete the SYNC_TOKEN property. -/
def resetSyncToken (_st : Option String) : Option String := none

/-- syncCalendarToBigQuery from gasSyncManager, as a function of the
provider response, of whether the warehouse insert call throws, of the
run timestamp, and of the stored token state. It fetches (which already
persists a truthy nextSyncToken), and when events arrived it stamps and
inserts them; a throwing insert aborts the run after the token was
already overwritten. The returned pair is the run outcome (the inserted
rows on success) and the final token state. -/
def syncCalendarToBigQuery (resp : EventsListResponse) (insertThrows : Bool)
    (currentTimestamp : String) (st : Option String) :
    Except String (List EventRow) × Option String :=
  if (fetchCalendarEvents resp st).1.length > 0 then
    if insertThrows then (.error "insert failed", (fetchCalendarEvents resp st).2)
    else
      (.ok (insertEventsIntoBigQuery
         (addTimestamp currentTimestamp (fetchCalendarEvents resp st).1)),
       (fetchCalendarEvents resp st).2)
  else (.ok [], (fetchCalendarEvents resp st).2)

/-- The per-run content of a catalog warehouse row: every field except
the two run timestamps, which are blanked. Two rows agree on content
exactly when they differ at most in record_date_time and modified_time. -/
def rowContent (r : ProjectRow) : ProjectRow :=
  { r with record_date_time := "", modified_time := "" }

/-- A ledger row with every mandatory column present, used as concrete
input by several witnesses. -/
def sampleValidRow : LedgerRow :=
  { code := .str "T100"
    client := .str "Acme"
    project := .str "Website"
    task := .str "Build"
    is_default := .boolean false
    start := .date 20240101
    stop := .date 20241231
    rate := .num 100
    description := .str "main build"
    comments := .empty
    budgetedHours := .num 10
    companySize := .str "M"
    categories := .str "dev, web" }

/-- The sampleValidRow with its client cell blank, so the client field
maps to null and fails the mandatory-field check. -/
def sampleRowMissingClient : LedgerRow :=
  { sampleValidRow with client := .empty }

/-- Three valid rows followed by one row missing its client, the batch
shape of the partial-insert scenario. -/
def sampleBadLedger : List LedgerRow :=
  [sampleValidRow, sampleValidRow, sampleValidRow, sampleRowMissingClient]

/-- A catalog state whose ledger is the four-row batch above, with a cold
cache and an empty warehouse. -/
def sampleBadState : CatalogState :=
  { cache := none, ledger := sampleBadLedger, bq := [] }

/-- A catalog state holding a stale cached snapshot (an empty one) that
disagrees with the current one-row ledger. -/
def sampleStaleState : CatalogState :=
  { cache := some [], ledger := [sampleValidRow], bq := [] }

/-- A catalog state with a one-row ledger, a cold cache and an empty
warehouse. -/
def sampleGoodState : CatalogState :=
  { cache := none, ledger := [sampleValidRow], bq := [] }

/-- The ledger row of the active-window scenario: client A, project P,
task T, valid from 2024-01-01 to 2024-12-31. -/
def sampleActiveRow : LedgerRow :=
  { code := .str "T1"
    client := .str "A"
    project := .str "P"
    task := .str "T"
    is_default := .boolean false
    start := .date 20240101
    stop := .date 20241231
    rate := .empty
    description := .empty
    comments := .empty
    budgetedHours := .empty
    companySize := .empty
    categories := .empty }

/-- A cancelled calendar event mutation, used as concrete input by
witnesses. -/
def sampleCancelledEvent : CalEvent :=
  { record_load_time := "2025-01-01T00:00:00.000Z"
    id := "evt1"
    summary := some "meeting"
    description := none
    start := { dateTime := some "2025-01-01T09:00:00Z", date := none }
    stop := { dateTime := some "2025-01-01T10:00:00Z", date := none }
    status := some "cancelled"
    extendedProperties := none
    iCalUID := some "evt1@example.com"
    creator := some { email := some "user@example.com" }
    created := some "2024-12-31T12:00:00Z"
    updated := some "2025-01-01T08:00:00Z" }

/-- A provider response carrying zero mutations together with an advanced
next sync token. -/
def sampleEmptyResp : EventsListResponse :=
  { items := [], nextSyncToken := some "tokNext" }

/-- A provider response carrying one mutation together with an advanced
next sync token. -/
def sampleEventResp : EventsListResponse :=
  { items := [sampleCancelledEvent], nextSyncToken := some "tok1" }

/-- Looking a key up after a JavaScript object update: the updated key
now holds the function applied to its old value (or to the default when
the key was absent), every other key is untouched. -/
theorem lookupA_updateAssoc {α : Type} (k q : String) (d : α) (f : α → α)
    (l : List (String × α)) :
    lookupA q (updateAssoc k d f l) =
      if k = q then some (f ((lookupA q l).getD d)) else lookupA q l := by
  induction l with
  | nil =>
    by_cases h : k = q <;> simp [updateAssoc, lookupA, h]
  | cons hd tl ih =>
    obtain ⟨k0, v⟩ := hd
    by_cases h0 : k0 = k
    · subst h0
      by_cases hq : k0 = q
      · subst hq
        simp [updateAssoc, lookupA]
      · simp [updateAssoc, lookupA, hq]
    · by_cases hq : k0 = q
      · subst hq
        have hkq : ¬ k = k0 := fun h => h0 h.symm
        simp [updateAssoc, lookupA, h0, hkq]
      · simp [updateAssoc, lookupA, h0, hq, ih]

/-- The task list under a client and project pair after one tree push:
extended by the new entry at the pushed pair, untouched elsewhere. -/
theorem lookupTasks_insertTree (t : CatalogTree) (c p c1 p1 : String) (e : TaskEntry) :
    lookupTasks (insertTree t c p e) c1 p1 =
      if c = c1 ∧ p = p1 then lookupTasks t c1 p1 ++ [e] else lookupTasks t c1 p1 := by
  unfold lookupTasks insertTree
  rw [lookupA_updateAssoc]
  by_cases hc : c = c1
  · subst hc
    rw [if_pos rfl]
    simp only [Option.getD_some]
    rw [lookupA_updateAssoc]
    by_cases hp : p = p1
    · subst hp
      simp
    · simp [hp]
  · simp [hc]

/-- Membership in a task list after one tree push: the entry is there
exactly when it already was, or when it is the pushed entry at the
pushed client and project pair. -/
theorem mem_lookupTasks_insertTree (t : CatalogTree) (c p c1 p1 : String)
    (e e1 : TaskEntry) :
    e1 ∈ lookupTasks (insertTree t c p e) c1 p1 ↔
      e1 ∈ lookupTasks t c1 p1 ∨ (c = c1 ∧ p = p1 ∧ e1 = e) := by
  rw [lookupTasks_insertTree]
  by_cases h : c = c1 ∧ p = p1
  · simp [h]
  · simp only [if_neg h]
    constructor
    · exact Or.inl
    · rintro (h1 | ⟨hc, hp, _⟩)
      · exact h1
      · exact absurd ⟨hc, hp⟩ h

/-- Membership in the nested structure built by the active-projects fold
from an arbitrary accumulator: an entry is found under a client and
project pair exactly when it was already in the accumulator there, or
some active data row put it there. -/
theorem mem_activeTree_foldl (today : Int) (data : List LedgerRow) :
    ∀ (acc : CatalogTree) (c p : String) (e : TaskEntry),
      e ∈ lookupTasks (data.foldl (activeStep today) acc) c p ↔
        e ∈ lookupTasks acc c p ∨
          ∃ r, r ∈ data ∧ isActive r today = true ∧
            cellString r.client = c ∧ cellString r.project = p ∧ e = entryOf r := by
  induction data with
  | nil => intro acc c p e; simp
  | cons r rest ih =>
    intro acc c p e
    rw [List.foldl_cons, ih]
    unfold activeStep
    by_cases ha : isActive r today
    · rw [if_pos ha, mem_lookupTasks_insertTree]
      simp only [List.mem_cons, ha]
      constructor
      · rintro ((h1 | ⟨hc, hp, he⟩) | ⟨r1, hr1, hact, hc, hp, he⟩)
        · exact Or.inl h1
        · exact Or.inr ⟨r, Or.inl rfl, ha, hc, hp, he⟩
        · exact Or.inr ⟨r1, Or.inr hr1, hact, hc, hp, he⟩
      · rintro (h1 | ⟨r1, (hr1 | hr1), hact, hc, hp, he⟩)
        · exact Or.inl (Or.inl h1)
        · subst hr1
          exact Or.inl (Or.inr ⟨hc, hp, he⟩)
        · exact Or.inr ⟨r1, hr1, hact, hc, hp, he⟩
    · rw [if_neg ha]
      simp only [List.mem_cons]
      constructor
      · rintro (h1 | ⟨r1, hr1, hact, hc, hp, he⟩)
        · exact Or.inl h1
        · exact Or.inr ⟨r1, Or.inr hr1, hact, hc, hp, he⟩
      · rintro (h1 | ⟨r1, (hr1 | hr1), hact, hc, hp, he⟩)
        · exact Or.inl h1
        · subst hr1
          exact absurd hact (by simpa using ha)
        · exact Or.inr ⟨r1, hr1, hact, hc, hp, he⟩

/-- Re-running the catalog row mapping with a different shared timestamp
cannot change whether it succeeds, and on success it changes the rows
only in their two timestamp fields: the timestamp never feeds the
mandatory-field validation. -/
theorem mapRowsFrom_retime (t t' : String) :
    ∀ (d : List LedgerRow) (i : Nat) (b : List ProjectRow),
      mapRowsFrom t i d = .ok b →
      ∃ b', mapRowsFrom t' i d = .ok b' ∧ b.map rowContent = b'.map rowContent := by
  intro d
  induction d with
  | nil =>
    intro i b h
    unfold mapRowsFrom at h
    injection h with h1
    exact ⟨[], rfl, by rw [← h1]⟩
  | cons r rest ih =>
    intro i b h
    have hsame : missingMandatory (mapLedgerRow t' r) = missingMandatory (mapLedgerRow t r) := rfl
    unfold mapRowsFrom at h ⊢
    cases hmf : missingMandatory (mapLedgerRow t r) with
    | some f =>
      rw [hmf] at h
      exact absurd h (by simp)
    | none =>
      rw [hmf] at h
      cases hrec : mapRowsFrom t (i + 1) rest with
      | error e =>
        rw [hrec] at h
        exact absurd h (by simp)
      | ok rs =>
        rw [hrec] at h
        injection h with h1
        obtain ⟨b', hb', hcontent⟩ := ih (i + 1) rs hrec
        refine ⟨mapLedgerRow t' r :: b', ?_, ?_⟩
        · rw [hsame, hmf, hb']
        · rw [← h1]
          simp only [List.map_cons, hcontent]
          congr 1

/-- The final token state of an event sync run is whatever the fetch left
behind, whether or not events arrived and whether or not the insert call
threw: the run never writes the token again after the fetch. -/
theorem syncCalendar_token_state (resp : EventsListResponse) (insertThrows : Bool)
    (ts : String) (st : Option String) :
    (syncCalendarToBigQuery resp insertThrows ts st).2 = (fetchCalendarEvents resp st).2 := by
  unfold syncCalendarToBigQuery
  split
  · split <;> rfl
  · rfl

/-- A truthy nextSyncToken in the provider response overwrites the stored
token during the fetch itself. -/
theorem fetch_token_overwrites (resp : EventsListResponse) (st : Option String) (t : String)
    (ht : resp.nextSyncToken = some t) (hne : t ≠ "") :
    (fetchCalendarEvents resp st).2 = some t := by
  unfold fetchCalendarEvents
  rw [ht]
  simp [hne]

/-- C4: for every ledger row of the data and every as-of day, the active
projects tree (getActiveProjectsTree) includes the row's task entry
under its client and project exactly when validityStart <= asOf <=
validityEnd, where a missing (falsy) start or end bound defaults to
asOf itself, so a row with an unbounded side is active only on that day;
in particular a row with start 2024-01-01 and end 2024-12-31 is included
for asOf 2024-06-01 and excluded for asOf 2025-01-01. -/
theorem C4_active_window_inclusion (data : List LedgerRow) (r : LedgerRow) (asOf : Int)
    (hmem : r ∈ data) :
    entryOf r ∈ lookupTasks (getActiveProjectsTree data asOf)
        (cellString r.client) (cellString r.project) ↔
      ∃ s e, dayBound r.start asOf = some s ∧ dayBound r.stop asOf = some e ∧
        s ≤ asOf ∧ asOf ≤ e := by
  unfold getActiveProjectsTree
  rw [mem_activeTree_foldl]
  constructor
  · rintro (h0 | ⟨r1, _, hact, _, _, he⟩)
    · simp [lookupTasks, lookupA] at h0
    · have hstart : r.start = r1.start := congrArg TaskEntry.start he
      have hstop : r.stop = r1.stop := congrArg TaskEntry.stop he
      unfold isActive at hact
      rw [← hstart, ← hstop] at hact
      cases hds : dayBound r.start asOf with
      | none => rw [hds] at hact; simp at hact
      | some s =>
        cases hde : dayBound r.stop asOf with
        | none => rw [hds, hde] at hact; simp at hact
        | some e =>
          rw [hds, hde] at hact
          exact ⟨s, e, rfl, rfl, (of_decide_eq_true hact).1, (of_decide_eq_true hact).2⟩
  · rintro ⟨s, e, hds, hde, h1, h2⟩
    refine Or.inr ⟨r, hmem, ?_, rfl, rfl, rfl⟩
    unfold isActive
    rw [hds, hde]
    exact decide_eq_true ⟨h1, h2⟩

/-- Witness for C4 at the concrete row of the specification: client A,
project P, task T, window 2024-01-01 to 2024-12-31, included on
2024-06-01 and excluded on 2025-01-01. -/
theorem C4_active_window_inclusion_witness :
    entryOf sampleActiveRow ∈
      lookupTasks (getActiveProjectsTree [sampleActiveRow] 20240601) "A" "P" ∧
    entryOf sampleActiveRow ∉
      lookupTasks (getActiveProjectsTree [sampleActiveRow] 20250101) "A" "P" := by
  constructor
  · exact (C4_active_window_inclusion [sampleActiveRow] sampleActiveRow 20240601
      (by simp)).mpr ⟨20240101, 20241231, rfl, rfl, by decide, by decide⟩
  · intro h
    obtain ⟨s, e, hds, hde, h1, h2⟩ :=
      (C4_active_window_inclusion [sampleActiveRow] sampleActiveRow 20250101 (by simp)).mp h
    rw [show dayBound sampleActiveRow.stop 20250101 = some 20241231 from rfl] at hde
    injection hde with he1
    rw [← he1] at h2
    exact absurd h2 (by decide)

/-- C5: the event record mapper sets deleted to true exactly when the raw
mutation's status is cancelled (false for every other status), and every
mutation of the batch, cancelled ones included, contributes one row to
the batch submitted by insertEventsIntoBigQuery: nothing is filtered
out. -/
theorem C5_tombstone_preserved :
    (∀ e : CalEvent, ((mapEventRow e).deleted = true ↔ e.status = some "cancelled")) ∧
    (∀ events : List CalEvent, insertEventsIntoBigQuery events = events.map mapEventRow) ∧
    (∀ (events : List CalEvent) (e : CalEvent), e ∈ events →
      mapEventRow e ∈ insertEventsIntoBigQuery events) := by
  refine ⟨fun e => ?_, fun events => rfl, fun events e h => ?_⟩
  · simp [mapEventRow]
  · exact List.mem_map_of_mem mapEventRow h

/-- Witness for C5 at a concrete cancelled mutation: its row carries
deleted = true and is present in the submitted batch. -/
theorem C5_tombstone_preserved_witness :
    (mapEventRow sampleCancelledEvent).deleted = true ∧
    mapEventRow sampleCancelledEvent ∈ insertEventsIntoBigQuery [sampleCancelledEvent] := by
  constructor
  · exact (C5_tombstone_preserved.1 sampleCancelledEvent).mpr rfl
  · exact C5_tombstone_preserved.2.2 [sampleCancelledEvent] sampleCancelledEvent (by simp)

/-- C6: the mapper decodes the categories metadata field through
parseCategories; an absent field and a string that fails to JSON-parse
both yield the empty list, with the parse failure caught rather than
thrown, so a malformed categories string never blocks the batch. -/
theorem C6_malformed_categories_empty :
    (∀ e : CalEvent, (mapEventRow e).categories = parseCategories (sharedOf e).Categories) ∧
    parseCategories none = [] ∧
    (∀ s : String, jsonParse s = none → parseCategories (some s) = []) := by
  refine ⟨fun e => rfl, rfl, fun s h => ?_⟩
  by_cases hs : s = ""
  · subst hs; rfl
  · simp [parseCategories, hs, h]

/-- Witness for C6 at a concrete unparsable categories string. -/
theorem C6_malformed_categories_empty_witness :
    jsonParse "not json" = none ∧ parseCategories (some "not json") = [] := by
  have h : jsonParse "not json" = none := by
    have h0 : (jsonParse "not json").isNone = true := rfl
    exact Option.isNone_iff_eq_none.mp h0
  exact ⟨h, C6_malformed_categories_empty.2.2 "not json" h⟩

/-- C9: when the categories string parses successfully, parseCategories
keeps the parsed value only when it is an array; any non-array JSON
value (null, boolean, number, string or object) also collapses to the
empty list. -/
theorem C9_non_array_categories_empty :
    ∀ (s : String) (j : Json), jsonParse s = some j →
      parseCategories (some s) =
        (match j with
         | .arr elems => elems
         | _ => []) := by
  intro s j h
  have hs : ¬ s = "" := by
    intro he
    subst he
    rw [show jsonParse "" = none from rfl] at h
    exact Option.noConfusion h
  simp [parseCategories, hs, h]

/-- Witness for C9: a boolean JSON value collapses to the empty list
while an actual array is kept. -/
theorem C9_non_array_categories_empty_witness :
    parseCategories (some "true") = [] ∧
    parseCategories (some "[\"a\"]") = [Json.str "a"] := by
  constructor
  · exact C9_non_array_categories_empty "true" (Json.bool true) rfl
  · exact C9_non_array_categories_empty "[\"a\"]" (Json.arr [Json.str "a"]) rfl

/-- C7: after every successful event sync run whose provider response
carries a (truthy) nextSyncToken — a zero-mutation fetch included — the
stored token equals that nextSyncToken; and after resetSyncToken the
stored token is absent, getSyncToken returns none and the next fetch
sends no syncToken argument, making it a full sync. -/
theorem C7_token_monotonicity :
    (∀ (resp : EventsListResponse) (ts : String) (st : Option String) (t : String),
        resp.nextSyncToken = some t → t ≠ "" →
        getSyncToken (syncCalendarToBigQuery resp false ts st).2 = some t) ∧
    (∀ st : Option String,
        getSyncToken (resetSyncToken st) = none ∧
        requestSyncToken (resetSyncToken st) = none) := by
  constructor
  · intro resp ts st t ht hne
    have h1 : getSyncToken (syncCalendarToBigQuery resp false ts st).2 =
        (syncCalendarToBigQuery resp false ts st).2 := rfl
    rw [h1, syncCalendar_token_state, fetch_token_overwrites resp st t ht hne]
  · intro st
    exact ⟨rfl, rfl⟩

/-- Witness for C7: a zero-mutation response with token tokNext advances
the stored token from tokOld to tokNext; a reset leaves it absent. -/
theorem C7_token_monotonicity_witness :
    getSyncToken (syncCalendarToBigQuery sampleEmptyResp false "TS" (some "tokOld")).2 =
      some "tokNext" ∧
    getSyncToken (resetSyncToken (some "tokNext")) = none := by
  constructor
  · exact C7_token_monotonicity.1 sampleEmptyResp "TS" (some "tokOld") "tokNext" rfl
      (by decide)
  · exact (C7_token_monotonicity.2 (some "tokNext")).1

/-- C2 amended: the nextSyncToken is persisted during fetchCalendarEvents
itself, before the warehouse append; when the append then throws after a
successful fetch, the run aborts but the stored token has already been
advanced to nextSyncToken (not left at its pre-run value), so a retry
resumes from the new token and does not re-fetch the same mutations. -/
theorem C2_token_advanced_before_append :
    ∀ (resp : EventsListResponse) (ts : String) (st : Option String) (t : String),
      resp.nextSyncToken = some t → t ≠ "" → resp.items ≠ [] →
      (syncCalendarToBigQuery resp true ts st).1 = .error "insert failed" ∧
      (syncCalendarToBigQuery resp true ts st).2 = some t := by
  intro resp ts st t ht hne hit
  have hlen : (fetchCalendarEvents resp st).1.length > 0 := by
    have h0 : (fetchCalendarEvents resp st).1 = resp.items := rfl
    rw [h0]
    exact List.length_pos.mpr hit
  constructor
  · unfold syncCalendarToBigQuery
    rw [if_pos hlen]
    rfl
  · rw [syncCalendar_token_state, fetch_token_overwrites resp st t ht hne]

/-- Witness for C2 at a concrete run: pre-run token tok0, response token
tok1, one mutation, throwing append. -/
theorem C2_token_advanced_before_append_witness :
    (syncCalendarToBigQuery sampleEventResp true "TS" (some "tok0")).1 =
      Except.error "insert failed" ∧
    (syncCalendarToBigQuery sampleEventResp true "TS" (some "tok0")).2 = some "tok1" :=
  C2_token_advanced_before_append sampleEventResp "TS" (some "tok0") "tok1" rfl
    (by decide) (fun h => List.noConfusion h)

/-- Counterexample to C2 as stated: in a run whose append throws after a
successful fetch, the persisted token ends at the fetched tok1, not at
its pre-run value tok0, so the claim that it is left at the pre-run
value is false on this input. -/
theorem C2_pre_run_token_counterexample :
    (syncCalendarToBigQuery sampleEventResp true "TS" (some "tok0")).1 =
      Except.error "insert failed" ∧
    (syncCalendarToBigQuery sampleEventResp true "TS" (some "tok0")).2 = some "tok1" ∧
    (some "tok1" : Option String) ≠ some "tok0" := by
  refine ⟨rfl, rfl, by decide⟩

/-- C1 amended: in the catalog warehouse append (syncToBigQuery), a row
missing a mandatory field raises a descriptive error naming its 1-based
row index and field, and this error aborts the whole run before
submission: the sibling rows are not inserted and no batch reaches the
warehouse, rather than the invalid row alone being excluded. -/
theorem C1_validation_aborts_whole_batch :
    ∀ (t : String) (s : CatalogState) (msg : String),
      mapRowsFrom t 0 s.ledger = .error msg →
      (syncToBigQuery t s).1 = .error msg ∧ (syncToBigQuery t s).2.bq = s.bq := by
  intro t s msg h
  unfold syncToBigQuery
  rw [show mapRowsFrom t 0 (fetchData (clearCache s)).1 = Except.error msg from h]
  exact ⟨rfl, rfl⟩

/-- Witness for C1 at the concrete four-row ledger (three valid rows and
one missing its client): the mapping raises the row-4 error and the run
aborts with the warehouse untouched. -/
theorem C1_validation_aborts_whole_batch_witness :
    mapRowsFrom "TS" 0 sampleBadState.ledger =
      Except.error "Row 4: Missing mandatory field \"client\"." ∧
    ((syncToBigQuery "TS" sampleBadState).1 =
      Except.error "Row 4: Missing mandatory field \"client\"." ∧
     (syncToBigQuery "TS" sampleBadState).2.bq = sampleBadState.bq) :=
  ⟨rfl, C1_validation_aborts_whole_batch "TS" sampleBadState _ rfl⟩

/-- Counterexample to C1 as stated: on three valid rows plus one row
missing its client, the claim promises the three valid rows inserted and
one reported validation error; the code instead throws the row-4 error
and inserts nothing — the appended-batch list stays empty. -/
theorem C1_partial_insert_counterexample :
    (syncToBigQuery "TS" sampleBadState).1 =
      Except.error "Row 4: Missing mandatory field \"client\"." ∧
    (syncToBigQuery "TS" sampleBadState).2.bq = [] :=
  ⟨rfl, rfl⟩

/-- C3 amended: syncToBigQuery clears the catalog cache once, before
reading, so the read bypasses any stale snapshot and reloads the
authoritative ledger; but that read re-caches what it loaded and no
second invalidation follows the append, so a read immediately after the
sync is served from the cache — which then holds exactly the ledger
snapshot the sync itself read. -/
theorem C3_cache_repopulated_not_cleared :
    ∀ (t : String) (s : CatalogState),
      (syncToBigQuery t s).2.cache = some s.ledger ∧
      fetchData ((syncToBigQuery t s).2) = (s.ledger, (syncToBigQuery t s).2) ∧
      (∀ rows, mapRowsFrom t 0 s.ledger = .ok rows →
        (syncToBigQuery t s).2.bq = s.bq ++ [rows]) := by
  intro t s
  refine ⟨?_, ?_, ?_⟩
  · unfold syncToBigQuery
    cases hm : mapRowsFrom t 0 (fetchData (clearCache s)).1 <;> rfl
  · unfold syncToBigQuery
    cases hm : mapRowsFrom t 0 (fetchData (clearCache s)).1 <;> rfl
  · intro rows hrows
    unfold syncToBigQuery
    rw [show mapRowsFrom t 0 (fetchData (clearCache s)).1 = Except.ok rows from hrows]
    rfl

/-- Witness for C3 at a concrete state with a stale cached snapshot: the
sync reads the one-row ledger, not the stale empty cache, appends its
mapping, and leaves the cache holding the fresh ledger snapshot. -/
theorem C3_cache_repopulated_not_cleared_witness :
    (syncToBigQuery "TS" sampleStaleState).2.cache = some [sampleValidRow] ∧
    (syncToBigQuery "TS" sampleStaleState).2.bq = [[mapLedgerRow "TS" sampleValidRow]] := by
  refine ⟨(C3_cache_repopulated_not_cleared "TS" sampleStaleState).1, ?_⟩
  have h := (C3_cache_repopulated_not_cleared "TS" sampleStaleState).2.2
    [mapLedgerRow "TS" sampleValidRow] rfl
  simpa using h

/-- Counterexample to C3 as stated: immediately after the sync the cache
is not empty — it holds the snapshot cached by the sync's own read — so
a subsequent read finds a cached snapshot instead of rebuilding. -/
theorem C3_post_sync_cache_counterexample :
    (syncToBigQuery "TS" sampleStaleState).2.cache = some [sampleValidRow] ∧
    (syncToBigQuery "TS" sampleStaleState).2.cache ≠ none := by
  refine ⟨rfl, ?_⟩
  intro h
  rw [show (syncToBigQuery "TS" sampleStaleState).2.cache = some [sampleValidRow] from rfl]
    at h
  exact Option.noConfusion h

/-- C8: two catalog sync runs over the same unchanged ledger both
succeed, append one batch each, and the two batches agree field by field
once the two per-run timestamp fields (record_date_time and
modified_time) are blanked: all client, project, task, rate and category
content is identical between the runs. -/
theorem C8_catalog_sync_idempotent :
    ∀ (s : CatalogState) (t1 t2 : String),
      (∃ b, mapRowsFrom t1 0 s.ledger = .ok b) →
      ∃ b1 b2,
        syncToBigQuery t1 s =
          (.ok (), { cache := some s.ledger, ledger := s.ledger, bq := s.bq ++ [b1] }) ∧
        syncToBigQuery t2
            { cache := some s.ledger, ledger := s.ledger, bq := s.bq ++ [b1] } =
          (.ok (), { cache := some s.ledger, ledger := s.ledger, bq := s.bq ++ [b1, b2] }) ∧
        b1.map rowContent = b2.map rowContent := by
  rintro s t1 t2 ⟨b1, hb1⟩
  obtain ⟨b2, hb2, hcontent⟩ := mapRowsFrom_retime t1 t2 s.ledger 0 b1 hb1
  refine ⟨b1, b2, ?_, ?_, hcontent⟩
  · unfold syncToBigQuery
    rw [show mapRowsFrom t1 0 (fetchData (clearCache s)).1 = Except.ok b1 from hb1]
    rfl
  · unfold syncToBigQuery
    rw [show mapRowsFrom t2 0
        (fetchData (clearCache
          { cache := some s.ledger, ledger := s.ledger, bq := s.bq ++ [b1] })).1 =
        Except.ok b2 from hb2]
    rw [show s.bq ++ [b1, b2] = (s.bq ++ [b1]) ++ [b2] from (List.append_assoc s.bq [b1] [b2]).symm]
    rfl

/-- Witness for C8 at a concrete one-row ledger and two distinct run
timestamps. -/
theorem C8_catalog_sync_idempotent_witness :
    ∃ b1 b2,
      syncToBigQuery "T1" sampleGoodState =
        (.ok (), { cache := some sampleGoodState.ledger,
                   ledger := sampleGoodState.ledger,
                   bq := sampleGoodState.bq ++ [b1] }) ∧
      syncToBigQuery "T2"
          { cache := some sampleGoodState.ledger,
            ledger := sampleGoodState.ledger,
            bq := sampleGoodState.bq ++ [b1] } =
        (.ok (), { cache := some sampleGoodState.ledger,
                   ledger := sampleGoodState.ledger,
                   bq := sampleGoodState.bq ++ [b1, b2] }) ∧
      b1.map rowContent = b2.map rowContent :=
  C8_catalog_sync_idempotent sampleGoodState "T1" "T2" ⟨_, rfl⟩

/-- C10: in the catalog row coercion, a rate or budgeted-hours cell that
already holds a number is kept as is, and any other cell goes through
parseFloat(value) followed by a falsy-to-null collapse, so the textual
zero "0" and any non-numeric text both become null; the numeric value 0
survives only when the cell already holds the number 0. -/
theorem C10_rate_coercion :
    coerceNum (Cell.str "0") = none ∧
    (∀ s : String, jsParseFloat s = none → coerceNum (Cell.str s) = none) ∧
    coerceNum (Cell.num 0) = some 0 ∧
    (∀ v : Cell, (∀ q : Rat, v ≠ Cell.num q) →
      coerceNum v =
        (match jsParseFloat (cellString v) with
         | some q => if q = 0 then none else some q
         | none => none)) ∧
    (∀ v : Cell, coerceNum v = some 0 → v = Cell.num 0) := by
  have key : ∀ o : Option Rat,
      (match o with
       | some q => if q = 0 then none else some q
       | none => none) ≠ some (0 : Rat) := by
    intro o
    cases o with
    | none => simp
    | some q =>
      by_cases hq : q = 0
      · simp [hq]
      · simp [hq]
  refine ⟨by decide, fun s h => ?_, rfl, fun v hv => ?_, fun v h => ?_⟩
  · simp [coerceNum, cellString, h]
  · cases v with
    | num q => exact absurd rfl (hv q)
    | str s => rfl
    | boolean b => rfl
    | date d => rfl
    | empty => rfl
  · cases v with
    | num q =>
      injection h with h1
      rw [h1]
    | str s => exact absurd h (key (jsParseFloat (cellString (Cell.str s))))
    | boolean b => exact absurd h (key (jsParseFloat (cellString (Cell.boolean b))))
    | date d => exact absurd h (key (jsParseFloat (cellString (Cell.date d))))
    | empty => exact absurd h (key (jsParseFloat (cellString Cell.empty)))

/-- Witness for C10 at concrete cells: non-numeric text and the textual
zero both coerce to null while the numeric zero survives. -/
theorem C10_rate_coercion_witness :
    jsParseFloat "abc" = none ∧
    coerceNum (Cell.str "abc") = none ∧
    coerceNum (Cell.str "0") = none ∧
    coerceNum (Cell.num 0) = some 0 := by
  have h : jsParseFloat "abc" = none := by decide
  exact ⟨h, C10_rate_coercion.2.1 "abc" h, C10_rate_coercion.1, C10_rate_coercion.2.2.1⟩
